import Mathlib

/-!
Verification of the weather-record persistence subsystem.

The development shallowly embeds the persistence and workflow layer of the
weather application: the SQLite-backed record store (`src/database.py`,
class `WeatherDatabase`), the duplicate-resolution save workflow and XML
export (`src/main.py`, class `TemperatureDisplay`), and the bulk deletion
workflow (`src/main.py`, class `ViewRecordsPopup`).

Modelling conventions:
* The store is a `List WeatherRecord` in table (rowid) order.  SQLite's
  `INSERT OR REPLACE` deletes the colliding row and inserts a fresh row with
  a new rowid, which the model renders as filtering out the old record and
  appending the new one at the end.
* `created_at` (`TIMESTAMP DEFAULT CURRENT_TIMESTAMP`) is modelled by an
  explicit `now` argument supplied to `save_weather_record`.
* `WHERE location LIKE '%...%'` is modelled by `likeContains`, built on a
  full SQLite `LIKE` matcher: `%` in the bound pattern matches any character
  sequence, `_` matches any single character, and other characters compare
  equal up to ASCII case folding.
* `ORDER BY` is modelled with `List.mergeSort`, which is stable, so rows
  comparing equal under the sort key stay in table order.
-/

structure WeatherRecord where
  location : String
  date : String
  temperature : Int
  wind_speed : String
  wind_direction : String
  forecast : String
  created_at : String
deriving DecidableEq

/-- The `(location, date)` key comparison used by the `UNIQUE(location, date)`
constraint and by keyed `DELETE`/`REPLACE` statements. -/
def sameKey (r : WeatherRecord) (loc d : String) : Bool :=
  r.location == loc && r.date == d

/-- ASCII-only lower-casing, as used by SQLite's default `LIKE` comparison. -/
def asciiLower (c : Char) : Char :=
  if 'A' ≤ c ∧ c ≤ 'Z' then Char.ofNat (c.toNat + 32) else c

/-- Decision procedure: `isPrefixList p l` decides whether `p` is a prefix of `l`. -/
def isPrefixList : List Char → List Char → Bool
  | [], _ => true
  | _ :: _, [] => false
  | a :: as, b :: bs => a == b && isPrefixList as bs

/-- SQLite `LIKE` pattern matching: `%` matches any sequence of characters,
`_` matches any single character, and any other pattern character matches a
text character equal to it up to ASCII case folding.  The first argument is
the pattern, the second the text. -/
def likeMatchList : List Char → List Char → Bool
  | [], t => t.isEmpty
  | p :: ps, t =>
    if p = '%' then
      likeMatchList ps t ||
        (match t with
         | [] => false
         | _ :: ts => likeMatchList (p :: ps) ts)
    else
      match t with
      | [] => false
      | c :: ts =>
        (if p = '_' then true else asciiLower p == asciiLower c) &&
          likeMatchList ps ts
termination_by p t => (p.length, t.length)

/-- The test `location LIKE ?` with the bound pattern built as
`'%' + pat + '%'` (src/database.py:130): wildcards inside `pat` keep their
`LIKE` meaning. -/
def likeContains (loc pat : String) : Bool :=
  likeMatchList ('%' :: (pat.data ++ ['%'])) loc.data

/-- Lexicographic (byte-wise) comparison of character lists: SQLite compares
`TEXT` values with `memcmp`, which on the repository's ASCII data coincides
with code-point lexicographic order. -/
def charListLE : List Char → List Char → Bool
  | [], _ => true
  | _ :: _, [] => false
  | a :: as, b :: bs => decide (a.toNat < b.toNat) || (a == b && charListLE as bs)

/-- Comparison `s ≤ t` under SQLite's default `BINARY` collation. -/
def strLE (s t : String) : Bool :=
  charListLE s.data t.data

namespace WeatherDatabase

/-- Method `save_weather_record` (src/database.py:48-77): `INSERT OR REPLACE` keyed
by `(location, date)`; the colliding row (if any) is removed and the new row
is appended with a fresh rowid and `created_at := now`. -/
def save_weather_record (db : List WeatherRecord) (location date_str : String)
    (temperature : Int) (wind_speed wind_direction forecast : String)
    (now : String) : List WeatherRecord × Bool :=
  (db.filter (fun r => !(sameKey r location date_str)) ++
    [⟨location, date_str, temperature, wind_speed, wind_direction, forecast, now⟩],
   true)

/-- The comparison behind `ORDER BY date DESC, location ASC`
(src/database.py:92). -/
def recLE (a b : WeatherRecord) : Bool :=
  !(strLE a.date b.date) || (a.date == b.date && strLE a.location b.location)

/-- Method `get_all_records` (src/database.py:79-110): all rows,
`ORDER BY date DESC, location ASC`. -/
def get_all_records (db : List WeatherRecord) : List WeatherRecord :=
  List.mergeSort db recLE

/-- The comparison behind `ORDER BY date DESC` (src/database.py:129): no
secondary key, so equal dates stay in table order under the stable sort. -/
def dateDescLE (a b : WeatherRecord) : Bool :=
  strLE b.date a.date

/-- Method `get_records_by_location` (src/database.py:112-147):
`WHERE location LIKE '%loc%' ORDER BY date DESC`. -/
def get_records_by_location (db : List WeatherRecord) (location : String) :
    List WeatherRecord :=
  List.mergeSort (db.filter (fun r => likeContains r.location location)) dateDescLE

/-- Method `delete_record` (src/database.py:149-176): `DELETE ... WHERE location = ?
AND date = ?`; returns `cursor.rowcount > 0`. -/
def delete_record (db : List WeatherRecord) (location date_str : String) :
    List WeatherRecord × Bool :=
  (db.filter (fun r => !(sameKey r location date_str)),
   db.any (fun r => sameKey r location date_str))

/-- Method `get_record_count` (src/database.py:178-192): `SELECT COUNT(*)`. -/
def get_record_count (db : List WeatherRecord) : Nat :=
  db.length

end WeatherDatabase

/-! ### Decimal text (Python `str` on integers) and its re-parsing -/

/-- Decimal digit characters of `n`, most significant first: the embedding of
Python `str` on a non-negative integer. -/
def natToDigits (n : Nat) : List Char :=
  if n < 10 then [Char.ofNat (48 + n)]
  else natToDigits (n / 10) ++ [Char.ofNat (48 + n % 10)]
decreasing_by
  apply Nat.div_lt_self <;> omega

/-- Python `str` on a non-negative integer. -/
def pyStrNat (n : Nat) : String :=
  ⟨natToDigits n⟩

/-- Python `str` on an integer (a leading minus sign for negatives). -/
def pyStrInt : Int → String
  | Int.ofNat n => pyStrNat n
  | Int.negSucc n => "-" ++ pyStrNat (n + 1)

/-- Value of a decimal digit character. -/
def digitVal (c : Char) : Option Nat :=
  if 48 ≤ c.toNat ∧ c.toNat ≤ 57 then some (c.toNat - 48) else none

/-- Left-to-right accumulation of decimal digits; fails on a non-digit. -/
def parseNatAux : List Char → Nat → Option Nat
  | [], acc => some acc
  | c :: cs, acc =>
    match digitVal c with
    | none => none
    | some d => parseNatAux cs (acc * 10 + d)

/-- Re-parse a decimal numeral (non-empty, digits only). -/
def parseNat (s : String) : Option Nat :=
  match s.data with
  | [] => none
  | l => parseNatAux l 0

/-- Re-parse an optionally minus-signed decimal numeral. -/
def parseInt (s : String) : Option Int :=
  match s.data with
  | [] => none
  | '-' :: rest =>
    match rest with
    | [] => none
    | l => (parseNatAux l 0).map (fun n => -(n : Int))
  | l => (parseNatAux l 0).map (fun n => (n : Int))

/-! ### The XML document model (`xml.etree.ElementTree` tree shape) -/

/-- An element tree node: tag, attributes in order, optional text, children.
This is the shape `ET.Element`/`ET.SubElement` build in
`export_records_to_xml` (src/main.py:880-897). -/
inductive XmlElement where
  | mk (tag : String) (attrs : List (String × String)) (text : Option String)
      (children : List XmlElement)

def XmlElement.tag : XmlElement → String
  | .mk t _ _ _ => t

def XmlElement.attrs : XmlElement → List (String × String)
  | .mk _ a _ _ => a

def XmlElement.text : XmlElement → Option String
  | .mk _ _ x _ => x

def XmlElement.children : XmlElement → List XmlElement
  | .mk _ _ _ c => c

/-! ### Workflow state (`TemperatureDisplay`, src/main.py) -/

/-- The stashed field set of a save awaiting duplicate confirmation
(`self.pending_save_info`, src/main.py:944-951). -/
structure PendingSave where
  location : String
  date_str : String
  temperature : Int
  wind_speed : String
  wind_direction : String
  forecast : String
deriving DecidableEq

/-- Application state relevant to the save workflow: the store plus the
single pending-confirmation slot. -/
structure AppState where
  db : List WeatherRecord
  pending_save_info : Option PendingSave
deriving DecidableEq

namespace TemperatureDisplay

/-- Method `TemperatureDisplay.save_weather_record` (src/main.py:918-963): queries
`get_records_by_location(location)`, scans for a matching date; on a
duplicate it stashes the fields and returns `False` without saving,
otherwise it saves directly. -/
def save_weather_record (st : AppState) (location date_str : String)
    (temperature : Int) (wind_speed wind_direction forecast : String)
    (now : String) : AppState × Bool :=
  if (WeatherDatabase.get_records_by_location st.db location).any
      (fun r => r.date == date_str) then
    (⟨st.db,
      some ⟨location, date_str, temperature, wind_speed, wind_direction,
        forecast⟩⟩,
     false)
  else
    (⟨(WeatherDatabase.save_weather_record st.db location date_str temperature
        wind_speed wind_direction forecast now).1,
      st.pending_save_info⟩,
     (WeatherDatabase.save_weather_record st.db location date_str temperature
       wind_speed wind_direction forecast now).2)

/-- Method `TemperatureDisplay.handle_duplicate_confirmation` (src/main.py:965-991):
on `True` with a stashed save, saves the stashed fields; the pending slot is
cleared unconditionally. -/
def handle_duplicate_confirmation (st : AppState) (should_update : Bool)
    (now : String) : AppState :=
  if should_update then
    match st.pending_save_info with
    | some p =>
      ⟨(WeatherDatabase.save_weather_record st.db p.location p.date_str
          p.temperature p.wind_speed p.wind_direction p.forecast now).1,
       none⟩
    | none => ⟨st.db, none⟩
  else ⟨st.db, none⟩

/-- Method `TemperatureDisplay.export_records_to_xml` (src/main.py:870-916), tree
construction part: the root element with `export_date` and `total_records`
attributes and one `weather_record` child per record, each with the seven
fields as named sub-elements in a fixed order. -/
def export_record_element (r : WeatherRecord) : XmlElement :=
  .mk "weather_record" [] none [
    .mk "location" [] (some r.location) [],
    .mk "date" [] (some r.date) [],
    .mk "temperature" [] (some (pyStrInt r.temperature)) [],
    .mk "wind_speed" [] (some r.wind_speed) [],
    .mk "wind_direction" [] (some r.wind_direction) [],
    .mk "forecast" [] (some r.forecast) [],
    .mk "created_at" [] (some r.created_at) []]

def export_records_to_xml (exportDate : String) (records : List WeatherRecord) :
    XmlElement :=
  .mk "weather_records"
    [("export_date", exportDate), ("total_records", pyStrNat records.length)]
    none
    (records.map export_record_element)

end TemperatureDisplay

/-! ### The written export file, line by line (src/main.py:899-910)

`export_records_to_xml` serializes the tree (`ET.tostring`), re-parses it
with `minidom` and pretty-prints it with a two-space indent, drops the
first line of that output (the declaration `minidom` emits), and writes its
own declaration line followed by the remainder.  The model below produces
the written file as a list of lines; text is assumed free of newlines
(`singleLine` below), under which the model lines are exactly the file
lines.  `minidom` escapes the characters needing escaping in character
data, and puts an element holding only text on a single line. -/

/-- Escaping of character data as performed by the serializer. -/
def escapeXml (s : String) : String :=
  ⟨s.data.flatMap (fun c =>
    if c = '&' then ['&', 'a', 'm', 'p', ';']
    else if c = '<' then ['&', 'l', 't', ';']
    else if c = '"' then ['&', 'q', 'u', 'o', 't', ';']
    else if c = '>' then ['&', 'g', 't', ';']
    else [c])⟩

/-- A string that contains no newline, so it occupies one line when written. -/
abbrev singleLine (s : String) : Prop :=
  '\n' ∉ s.data

/-- One leaf field, indented two levels; an empty text serializes as a
self-closing tag. -/
def fieldLine (name txt : String) : String :=
  if txt = "" then "    <" ++ name ++ "/>"
  else "    <" ++ name ++ ">" ++ escapeXml txt ++ "</" ++ name ++ ">"

/-- The pretty-printed lines of one `weather_record` element. -/
def recordLines (r : WeatherRecord) : List String :=
  ["  <weather_record>",
   fieldLine "location" r.location,
   fieldLine "date" r.date,
   fieldLine "temperature" (pyStrInt r.temperature),
   fieldLine "wind_speed" r.wind_speed,
   fieldLine "wind_direction" r.wind_direction,
   fieldLine "forecast" r.forecast,
   fieldLine "created_at" r.created_at,
   "  </weather_record>"]

/-- The root element's opening line with its two attributes. -/
def rootOpenLine (exportDate : String) (n : Nat) : String :=
  "<weather_records export_date=\"" ++ escapeXml exportDate ++
    "\" total_records=\"" ++ pyStrNat n ++ "\">"

/-- The root element's single line when there are no records. -/
def rootEmptyLine (exportDate : String) : String :=
  "<weather_records export_date=\"" ++ escapeXml exportDate ++
    "\" total_records=\"0\"/>"

/-- The lines of `toprettyxml(indent="  ")`: the declaration `minidom`
emits, the root element, and the trailing empty line from the final
newline. -/
def prettyXmlLines (exportDate : String) (records : List WeatherRecord) :
    List String :=
  "<?xml version=\"1.0\" ?>" ::
    ((if records.isEmpty then [rootEmptyLine exportDate]
      else rootOpenLine exportDate records.length ::
        (records.flatMap recordLines ++ ["</weather_records>"])) ++ [""])

/-- The lines of the written file: the code drops the first pretty-printed
line and writes its own declaration in front (src/main.py:906-910). -/
def export_file_lines (exportDate : String) (records : List WeatherRecord) :
    List String :=
  "<?xml version=\"1.0\" encoding=\"UTF-8\"?>" ::
    (prettyXmlLines exportDate records).tail

/-- A line that is an XML declaration (it begins with the two characters
of a processing-instruction opener). -/
def startsWithDecl (s : String) : Bool :=
  isPrefixList ['<', '?'] s.data

/-! ### Bulk deletion workflow (`ViewRecordsPopup`, src/main.py) -/

/-- The counting pass of `delete_selected_records` (src/main.py:599-603):
one `delete_record` call per selected record, counting successes.  Returns
the store, the success count and the number of delete invocations. -/
def deletePass (db : List WeatherRecord) :
    List WeatherRecord → List WeatherRecord × Nat × Nat
  | [] => (db, 0, 0)
  | r :: rs =>
    let res := WeatherDatabase.delete_record db r.location r.date
    let rest := deletePass res.1 rs
    (rest.1, (if res.2 then 1 else 0) + rest.2.1, rest.2.2 + 1)

/-- The generator `any(self.parent_app.db.delete_record(...) for r in
selected_records)` (src/main.py:609): re-invokes `delete_record` on each
record until one reports success.  Returns the store, the boolean, and the
number of delete invocations. -/
def anyDeletePass (db : List WeatherRecord) :
    List WeatherRecord → List WeatherRecord × Bool × Nat
  | [] => (db, false, 0)
  | r :: rs =>
    let res := WeatherDatabase.delete_record db r.location r.date
    if res.2 then (res.1, true, 1)
    else
      let rec2 := anyDeletePass res.1 rs
      (rec2.1, rec2.2.1, rec2.2.2 + 1)

/-- The `deleted_keys` set comprehension (src/main.py:608-609): for each
selected record it runs the `any(...)` generator over the whole selection
again.  The set it builds is never used; only the store mutations and the
extra delete invocations are observable. -/
def deletedKeysGo (selected : List WeatherRecord) :
    List WeatherRecord → List WeatherRecord → List WeatherRecord × Nat
  | db, [] => (db, 0)
  | db, _ :: rest =>
    let res := anyDeletePass db selected
    let r2 := deletedKeysGo selected res.1 rest
    (r2.1, res.2.2 + r2.2)

def deletedKeysPass (db : List WeatherRecord) (selected : List WeatherRecord) :
    List WeatherRecord × Nat :=
  deletedKeysGo selected db selected

/-- Method `ViewRecordsPopup.delete_selected_records` (src/main.py:597-635).
Returns the final store, the reported success count, the total number of
`delete_record` invocations, and the refreshed display list
(`some (get_all_records ...)` re-fetched from the store when any deletion
succeeded, `none` when the error branch leaves the display untouched). -/
def delete_selected_records (db : List WeatherRecord)
    (selected : List WeatherRecord) :
    List WeatherRecord × Nat × Nat × Option (List WeatherRecord) :=
  let pass1 := deletePass db selected
  let success_count := pass1.2.1
  if success_count > 0 then
    let pass2 := deletedKeysPass pass1.1 selected
    (pass2.1, success_count, pass1.2.2 + pass2.2,
     some (WeatherDatabase.get_all_records pass2.1))
  else
    (pass1.1, success_count, pass1.2.2, none)

/-- The user-visible outcome of the bulk deletion flow. -/
inductive BulkOutcome where
  | noSelection
  | deleted (n : Nat)
  | error
deriving DecidableEq

/-- Method `ViewRecordsPopup.confirm_delete_selected` (src/main.py:579-595)
composed with the user-confirmed deletion callback: an empty selection is
rejected up front ("No Selection" popup) before any store call; otherwise
the deletion runs and reports either the success count ("Deleted" popup) or
an error ("Error" popup, src/main.py:628-635).  Returns the store, the
number of `delete_record` invocations, and the outcome. -/
def confirm_delete_selected (db : List WeatherRecord)
    (selected : List WeatherRecord) :
    List WeatherRecord × Nat × BulkOutcome :=
  if selected.isEmpty then (db, 0, .noSelection)
  else
    let res := delete_selected_records db selected
    if res.2.1 > 0 then (res.1, res.2.2.1, .deleted res.2.1)
    else (res.1, res.2.2.1, .error)

/-! ### Save sequences and key uniqueness (for the store invariant) -/

/-- One `save` request, as issued by a caller of the store. -/
structure SaveReq where
  location : String
  date_str : String
  temperature : Int
  wind_speed : String
  wind_direction : String
  forecast : String
  now : String
deriving DecidableEq

/-- Run a sequence of `save` calls against a store. -/
def runSaves (db : List WeatherRecord) (reqs : List SaveReq) :
    List WeatherRecord :=
  reqs.foldl
    (fun acc q => (WeatherDatabase.save_weather_record acc q.location q.date_str
      q.temperature q.wind_speed q.wind_direction q.forecast q.now).1)
    db

/-- No two rows share a `(location, date)` key. -/
def KeysUnique (db : List WeatherRecord) : Prop :=
  List.Pairwise (fun r1 r2 => ¬(r1.location = r2.location ∧ r1.date = r2.date)) db

/-- At most one row per `(location, date)` pair. -/
def AtMostOnePerKey (db : List WeatherRecord) : Prop :=
  ∀ loc d : String, db.countP (fun r => sameKey r loc d) ≤ 1

/-! ### Concrete fixtures used by counterexamples and witnesses -/

def recBoston : WeatherRecord :=
  ⟨"Boston, MA", "2024-03-01", 30, "15 mph", "E", "Snow", "t0"⟩

def recAustin : WeatherRecord :=
  ⟨"Austin, TX", "2024-03-01", 72, "10 mph", "NW", "Sunny", "t1"⟩

def recDallas : WeatherRecord :=
  ⟨"Dallas, TX", "2024-03-02", 80, "5 mph", "S", "Clear", "t2"⟩

def reqAustin72 : SaveReq :=
  ⟨"Austin, TX", "2024-03-01", 72, "10 mph", "NW", "Sunny", "2024-03-01 08:00:00"⟩

def reqAustin75 : SaveReq :=
  ⟨"Austin, TX", "2024-03-01", 75, "5 mph", "N", "Cloudy", "2024-03-01 09:00:00"⟩

/-! ### Order-theoretic facts about the sort comparators -/

theorem charEq_of_toNat_eq {a b : Char} (h : a.toNat = b.toNat) : a = b :=
  Char.ext (UInt32.toNat.inj h)

theorem charListLE_refl (x : List Char) : charListLE x x = true := by
  induction x with
  | nil => rfl
  | cons a as ih => simp [charListLE, ih]

theorem charListLE_total (x y : List Char) :
    charListLE x y = true ∨ charListLE y x = true := by
  induction x generalizing y with
  | nil => exact Or.inl rfl
  | cons a as ih =>
    cases y with
    | nil => exact Or.inr rfl
    | cons b bs =>
      rcases Nat.lt_trichotomy a.toNat b.toNat with h | h | h
      · left; simp [charListLE, h]
      · have hab : a = b := charEq_of_toNat_eq h
        subst hab
        rcases ih bs with h2 | h2
        · left; simp [charListLE, h2]
        · right; simp [charListLE, h2]
      · right; simp [charListLE, h]

theorem charListLE_antisymm : ∀ {x y : List Char},
    charListLE x y = true → charListLE y x = true → x = y
  | [], [], _, _ => rfl
  | [], _ :: _, _, h => by simp [charListLE] at h
  | _ :: _, [], h, _ => by simp [charListLE] at h
  | a :: as, b :: bs, h1, h2 => by
    simp only [charListLE, Bool.or_eq_true, decide_eq_true_eq, Bool.and_eq_true,
      beq_iff_eq] at h1 h2
    rcases h1 with h1 | ⟨rfl, h1⟩
    · rcases h2 with h2 | ⟨rfl, h2⟩
      · omega
      · omega
    · rcases h2 with h2 | ⟨_, h2⟩
      · omega
      · rw [charListLE_antisymm h1 h2]

theorem charListLE_trans : ∀ {x y z : List Char},
    charListLE x y = true → charListLE y z = true → charListLE x z = true
  | [], _, _, _, _ => rfl
  | _ :: _, [], _, h, _ => by simp [charListLE] at h
  | _ :: _, _ :: _, [], _, h => by simp [charListLE] at h
  | a :: as, b :: bs, c :: cs, h1, h2 => by
    simp only [charListLE, Bool.or_eq_true, decide_eq_true_eq, Bool.and_eq_true,
      beq_iff_eq] at h1 h2 ⊢
    rcases h1 with h1 | ⟨rfl, h1⟩
    · rcases h2 with h2 | ⟨rfl, h2⟩
      · exact Or.inl (Nat.lt_trans h1 h2)
      · exact Or.inl h1
    · rcases h2 with h2 | ⟨rfl, h2⟩
      · exact Or.inl h2
      · exact Or.inr ⟨rfl, charListLE_trans h1 h2⟩

theorem strLE_refl (s : String) : strLE s s = true :=
  charListLE_refl s.data

theorem strLE_total (s t : String) : strLE s t = true ∨ strLE t s = true :=
  charListLE_total s.data t.data

theorem strLE_trans {s t u : String} (h1 : strLE s t = true)
    (h2 : strLE t u = true) : strLE s u = true :=
  charListLE_trans h1 h2

theorem strLE_antisymm {s t : String} (h1 : strLE s t = true)
    (h2 : strLE t s = true) : s = t := by
  cases s with
  | mk ds => cases t with
    | mk dt => exact congrArg String.mk (charListLE_antisymm h1 h2)

theorem strLE_of_not_strLE {s t : String} (h : strLE s t = false) :
    strLE t s = true := by
  rcases strLE_total s t with h2 | h2
  · rw [h] at h2; cases h2
  · exact h2

namespace WeatherDatabase

theorem recLE_total (a b : WeatherRecord) : (recLE a b || recLE b a) = true := by
  simp only [recLE, Bool.or_eq_true, Bool.not_eq_true', Bool.and_eq_true, beq_iff_eq,
    decide_eq_true_eq]
  by_cases hd : a.date = b.date
  · rcases strLE_total a.location b.location with h | h
    · exact Or.inl (Or.inr ⟨hd, h⟩)
    · exact Or.inr (Or.inr ⟨hd.symm, h⟩)
  · cases h1 : strLE a.date b.date
    · exact Or.inl (Or.inl rfl)
    · cases h2 : strLE b.date a.date
      · exact Or.inr (Or.inl rfl)
      · exact absurd (strLE_antisymm h1 h2) hd

theorem recLE_trans (a b c : WeatherRecord) :
    recLE a b → recLE b c → recLE a c := by
  simp only [recLE, Bool.or_eq_true, Bool.not_eq_true', Bool.and_eq_true, beq_iff_eq,
    decide_eq_true_eq]
  rintro (h1 | ⟨e1, l1⟩) (h2 | ⟨e2, l2⟩)
  · left
    cases hac : strLE a.date c.date
    · rfl
    · have hcb : strLE c.date b.date = true := strLE_of_not_strLE h2
      have : strLE a.date b.date = true := strLE_trans hac hcb
      rw [h1] at this; cases this
  · left; rw [← e2]; exact h1
  · left; rw [e1]; exact h2
  · exact Or.inr ⟨e1.trans e2, strLE_trans l1 l2⟩

theorem dateDescLE_total (a b : WeatherRecord) :
    (dateDescLE a b || dateDescLE b a) = true := by
  simp only [dateDescLE, Bool.or_eq_true, decide_eq_true_eq]
  rcases strLE_total b.date a.date with h | h
  · exact Or.inl h
  · exact Or.inr h

theorem dateDescLE_trans (a b c : WeatherRecord) :
    dateDescLE a b → dateDescLE b c → dateDescLE a c := by
  simp only [dateDescLE]
  intro h1 h2
  exact strLE_trans h2 h1

end WeatherDatabase

theorem mergeSort_pair (le : α → α → Bool) (a b : α) :
    List.mergeSort [a, b] le = if le a b then [a, b] else [b, a] := by
  rw [List.mergeSort]
  simp [List.merge]

theorem likeMatchList_percent : ∀ t : List Char, likeMatchList ['%'] t = true := by
  intro t
  induction t with
  | nil => simp [likeMatchList]
  | cons c ts ih => simp [likeMatchList, ih]

theorem likeMatchList_percent_intro {ps t : List Char}
    (h : likeMatchList ps t = true) : likeMatchList ('%' :: ps) t = true := by
  cases t with
  | nil => simp [likeMatchList, h]
  | cons c ts => simp [likeMatchList, h]

theorem likeMatchList_percent_skip {ps ts : List Char} (c : Char)
    (h : likeMatchList ('%' :: ps) ts = true) :
    likeMatchList ('%' :: ps) (c :: ts) = true := by
  simp [likeMatchList, h]

theorem likeMatchList_self_front (p : List Char) :
    ∀ rest t : List Char, likeMatchList rest t = true →
      likeMatchList (p ++ rest) (p ++ t) = true := by
  induction p with
  | nil => intro rest t h; simpa using h
  | cons c cs ih =>
    intro rest t h
    have ihh := ih rest t h
    by_cases hc : c = '%'
    · subst hc
      rw [List.cons_append, List.cons_append]
      exact likeMatchList_percent_skip _ (likeMatchList_percent_intro ihh)
    · rw [List.cons_append, List.cons_append]
      by_cases hu : c = '_'
      · simp [likeMatchList, hc, hu, ihh]
      · simp [likeMatchList, hc, hu, ihh]

theorem likeMatchList_infix (p v : List Char) :
    ∀ u : List Char,
      likeMatchList ('%' :: (p ++ ['%'])) (u ++ (p ++ v)) = true := by
  intro u
  induction u with
  | nil =>
    rw [List.nil_append]
    exact likeMatchList_percent_intro
      (likeMatchList_self_front p ['%'] v (likeMatchList_percent v))
  | cons c cs ih =>
    rw [List.cons_append]
    exact likeMatchList_percent_skip _ ih

theorem likeContains_self (s : String) : likeContains s s = true := by
  rw [likeContains]
  have h := likeMatchList_infix s.data [] []
  simpa using h

theorem likeContains_boston_comma : likeContains "Boston, MA" ", " = true := by
  rw [likeContains,
    show ("Boston, MA" : String).data =
      "Boston".data ++ (", ".data ++ "MA".data) from rfl]
  exact likeMatchList_infix ", ".data "MA".data "Boston".data

theorem likeContains_austin_comma : likeContains "Austin, TX" ", " = true := by
  rw [likeContains,
    show ("Austin, TX" : String).data =
      "Austin".data ++ (", ".data ++ "TX".data) from rfl]
  exact likeMatchList_infix ", ".data "TX".data "Austin".data

theorem likeContains_austin_tx : likeContains "Austin, TX" "Austin" = true := by
  rw [likeContains,
    show ("Austin, TX" : String).data =
      [] ++ ("Austin".data ++ ", TX".data) from rfl]
  exact likeMatchList_infix "Austin".data ", TX".data []

/-! ### Claim theorems -/

/-- C2: for every store state, `list_all()` returns all records sorted by
date descending, and for records with equal dates, by location ascending. -/
theorem c2_list_all_sorted (db : List WeatherRecord) :
    (WeatherDatabase.get_all_records db).Perm db ∧
    List.Pairwise
      (fun a b => strLE b.date a.date = true ∧
        (a.date = b.date → strLE a.location b.location = true))
      (WeatherDatabase.get_all_records db) := by
  refine ⟨List.mergeSort_perm db _, ?_⟩
  have hs := List.sorted_mergeSort WeatherDatabase.recLE_trans
    WeatherDatabase.recLE_total db
  refine hs.imp ?_
  intro a b h
  simp only [WeatherDatabase.recLE, Bool.or_eq_true, Bool.not_eq_true',
    Bool.and_eq_true, beq_iff_eq] at h
  rcases h with h | ⟨e, l⟩
  · refine ⟨strLE_of_not_strLE h, ?_⟩
    intro e
    rw [e, strLE_refl] at h
    cases h
  · refine ⟨?_, fun _ => l⟩
    rw [e]
    exact strLE_refl _

/-- C3 (counterexample): the claim that `list_by_location(s)` returns the
matching records in the same relative order as `list_all()` fails on the
store holding Boston then Austin, both dated 2024-03-01: the pattern ", "
matches both, and the filtered query returns them in table order (Boston
first), while `list_all()` puts Austin first (location ascending on the
tied date). -/
theorem c3_filter_order_counterexample :
    WeatherDatabase.get_records_by_location [recBoston, recAustin] ", " ≠
      (WeatherDatabase.get_all_records [recBoston, recAustin]).filter
        (fun r => likeContains r.location ", ") := by
  have hB : likeContains recBoston.location ", " = true := likeContains_boston_comma
  have hA : likeContains recAustin.location ", " = true := likeContains_austin_comma
  have hfBA : List.filter (fun r => likeContains r.location ", ")
      [recBoston, recAustin] = [recBoston, recAustin] := by
    simp only [List.filter_cons, List.filter_nil, hB, hA]
    simp
  have hfAB : List.filter (fun r => likeContains r.location ", ")
      [recAustin, recBoston] = [recAustin, recBoston] := by
    simp only [List.filter_cons, List.filter_nil, hB, hA]
    simp
  have h1 : WeatherDatabase.get_records_by_location [recBoston, recAustin] ", " =
      [recBoston, recAustin] := by
    rw [WeatherDatabase.get_records_by_location, hfBA, mergeSort_pair]
    decide
  have h2 : WeatherDatabase.get_all_records [recBoston, recAustin] =
      [recAustin, recBoston] := by
    rw [WeatherDatabase.get_all_records, mergeSort_pair]
    decide
  rw [h1, h2, hfAB]
  decide

/-- C3 (amended): `list_by_location(s)` returns exactly the records whose
location matches the query's pattern `'%' + s + '%'` under SQLite `LIKE`
semantics (`%` and `_` inside `s` act as wildcards; literal characters
compare ASCII case-insensitively; every plain substring occurrence of `s`
matches), ordered by date descending; records with equal dates keep their
table order, which need not agree with the location-ascending tie-break of
`list_all()`. -/
theorem c3_filter_matching_records (db : List WeatherRecord) (s : String) :
    (WeatherDatabase.get_records_by_location db s).Perm
      (db.filter (fun r => likeContains r.location s)) ∧
    List.Pairwise (fun a b => strLE b.date a.date = true)
      (WeatherDatabase.get_records_by_location db s) := by
  refine ⟨List.mergeSort_perm _ _, ?_⟩
  have hs := List.sorted_mergeSort WeatherDatabase.dateDescLE_trans
    WeatherDatabase.dateDescLE_total
    (db.filter (fun r => likeContains r.location s))
  exact hs.imp (fun h => h)

theorem countP_not_add_countP (p : α → Bool) (l : List α) :
    l.countP (fun a => !(p a)) + l.countP p = l.length := by
  induction l with
  | nil => rfl
  | cons a t ih =>
    rw [List.countP_cons, List.countP_cons, List.length_cons, ← ih]
    cases h : p a <;> simp <;> omega

theorem keysUnique_countP_le_one {db : List WeatherRecord} (hu : KeysUnique db)
    (loc d : String) : db.countP (fun r => sameKey r loc d) ≤ 1 := by
  induction db with
  | nil => simp [List.countP_nil]
  | cons r t ih =>
    rw [List.countP_cons]
    rcases hu with _ | ⟨hr, hu⟩
    cases h : sameKey r loc d
    · simpa using ih hu
    · have hz : t.countP (fun r => sameKey r loc d) = 0 := by
        rw [List.countP_eq_zero]
        intro x hx hkx
        simp only [sameKey, Bool.and_eq_true, beq_iff_eq] at h hkx
        exact hr x hx ⟨h.1.trans hkx.1.symm, h.2.trans hkx.2.symm⟩
      simp [hz]

theorem save_preserves_atMostOne {db : List WeatherRecord}
    (h : AtMostOnePerKey db) (loc d : String) (t : Int) (ws wd fc now : String) :
    AtMostOnePerKey
      (WeatherDatabase.save_weather_record db loc d t ws wd fc now).1 := by
  intro loc2 d2
  rw [WeatherDatabase.save_weather_record]
  rw [List.countP_append]
  by_cases hk : sameKey ⟨loc, d, t, ws, wd, fc, now⟩ loc2 d2 = true
  · have hz : (db.filter (fun r => !(sameKey r loc d))).countP
        (fun r => sameKey r loc2 d2) = 0 := by
      rw [List.countP_eq_zero]
      intro x hx hkx
      rcases List.mem_filter.mp hx with ⟨_, hnot⟩
      simp only [sameKey, Bool.and_eq_true, beq_iff_eq] at hk hkx
      simp only [sameKey, Bool.not_eq_true', Bool.and_eq_false_iff,
        beq_eq_false_iff_ne, ne_eq] at hnot
      rcases hnot with hl | hd
      · exact hl (hkx.1.trans hk.1.symm)
      · exact hd (hkx.2.trans hk.2.symm)
    rw [hz, List.countP_cons, List.countP_nil]
    simp [hk]
  · have h1 : ([(⟨loc, d, t, ws, wd, fc, now⟩ : WeatherRecord)]).countP
        (fun r => sameKey r loc2 d2) = 0 := by
      rw [List.countP_eq_zero]
      intro x hx hkx
      rcases List.mem_singleton.mp hx with rfl
      exact hk hkx
    have h2 : (db.filter (fun r => !(sameKey r loc d))).countP
        (fun r => sameKey r loc2 d2) ≤ 1 :=
      le_trans (List.Sublist.countP_le _ (List.filter_sublist db)) (h loc2 d2)
    omega

theorem atMostOne_runSaves (db : List WeatherRecord) (h : AtMostOnePerKey db) :
    ∀ reqs : List SaveReq, AtMostOnePerKey (runSaves db reqs) := by
  intro reqs
  induction reqs generalizing db with
  | nil => exact h
  | cons q t ih =>
    exact ih _ (save_preserves_atMostOne h q.location q.date_str q.temperature
      q.wind_speed q.wind_direction q.forecast q.now)

/-- C1: every sequence of `save` calls leaves at most one record per
`(location, date)` pair (every prefix of a sequence is itself a sequence,
so this covers the store after each call); a save with a colliding key
overwrites all non-key fields of the prior record (refreshing
`created_at`) rather than creating a second row — the rows at the saved
key are exactly the one just written, and the row count is unchanged when
the key already existed; in particular saving Austin at 72 then at 75 on
the same date leaves one record with temperature 75. -/
theorem c1_upsert_uniqueness :
    (∀ reqs : List SaveReq, AtMostOnePerKey (runSaves [] reqs)) ∧
    (∀ (db : List WeatherRecord) (loc d : String) (t : Int) (ws wd fc now : String),
      (WeatherDatabase.save_weather_record db loc d t ws wd fc now).1.filter
        (fun r => sameKey r loc d) = [⟨loc, d, t, ws, wd, fc, now⟩]) ∧
    (∀ (db : List WeatherRecord) (loc d : String) (t : Int) (ws wd fc now : String),
      KeysUnique db → db.any (fun r => sameKey r loc d) = true →
      (WeatherDatabase.save_weather_record db loc d t ws wd fc now).1.length =
        db.length) ∧
    WeatherDatabase.get_record_count (runSaves [] [reqAustin72, reqAustin75]) = 1 ∧
    (runSaves [] [reqAustin72, reqAustin75]).map WeatherRecord.temperature = [75] := by
  refine ⟨?_, ?_, ?_, ?_, ?_⟩
  · exact atMostOne_runSaves [] (fun loc d => by simp [List.countP_nil])
  · intro db loc d t ws wd fc now
    rw [WeatherDatabase.save_weather_record, List.filter_append]
    have h1 : (db.filter (fun r => !(sameKey r loc d))).filter
        (fun r => sameKey r loc d) = [] := by
      rw [List.filter_eq_nil_iff]
      intro x hx
      rcases List.mem_filter.mp hx with ⟨_, hnot⟩
      simp only [Bool.not_eq_true'] at hnot
      simp [hnot]
    have h2 : ([(⟨loc, d, t, ws, wd, fc, now⟩ : WeatherRecord)]).filter
        (fun r => sameKey r loc d) = [⟨loc, d, t, ws, wd, fc, now⟩] := by
      simp [sameKey]
    rw [h1, h2, List.nil_append]
  · intro db loc d t ws wd fc now hu ha
    have hc1 : db.countP (fun r => sameKey r loc d) = 1 := by
      have hle := keysUnique_countP_le_one hu loc d
      have hpos : 0 < db.countP (fun r => sameKey r loc d) := by
        rw [List.countP_pos_iff]
        rcases List.any_eq_true.mp ha with ⟨x, hx, hkx⟩
        exact ⟨x, hx, hkx⟩
      omega
    rw [WeatherDatabase.save_weather_record]
    rw [List.length_append, List.length_singleton,
      ← List.countP_eq_length_filter]
    have := countP_not_add_countP (fun r => sameKey r loc d) db
    omega
  · decide
  · decide

/-- Witness for C1: a concrete colliding save against the one-record Austin
store keeps the row count at 1. -/
theorem c1_upsert_uniqueness_witness :
    KeysUnique [recAustin] ∧
    [recAustin].any (fun r => sameKey r "Austin, TX" "2024-03-01") = true ∧
    (WeatherDatabase.save_weather_record [recAustin] "Austin, TX" "2024-03-01"
      75 "5 mph" "N" "Cloudy" "t9").1.length = [recAustin].length := by
  have hu : KeysUnique [recAustin] := by simp [KeysUnique]
  have ha : [recAustin].any (fun r => sameKey r "Austin, TX" "2024-03-01") = true := by
    decide
  exact ⟨hu, ha, c1_upsert_uniqueness.2.2.1 [recAustin] "Austin, TX" "2024-03-01"
    75 "5 mph" "N" "Cloudy" "t9" hu ha⟩

/-- C4: deleting a key with no matching record returns false and leaves the
store unchanged; when a record at that exact key exists, the delete reports
true, the result holds exactly the rows at other keys, and (under the
store's uniqueness invariant) exactly one row is removed. -/
theorem c4_delete_missing_and_present (db : List WeatherRecord) (loc d : String) :
    (db.any (fun r => sameKey r loc d) = false →
      WeatherDatabase.delete_record db loc d = (db, false)) ∧
    (db.any (fun r => sameKey r loc d) = true →
      (WeatherDatabase.delete_record db loc d).2 = true ∧
      (∀ x : WeatherRecord,
        x ∈ (WeatherDatabase.delete_record db loc d).1 ↔
          x ∈ db ∧ sameKey x loc d = false) ∧
      (KeysUnique db →
        (WeatherDatabase.delete_record db loc d).1.length + 1 = db.length)) := by
  constructor
  · intro h
    rw [WeatherDatabase.delete_record, h,
      List.filter_eq_self.mpr (by
        intro a ha
        simp [List.any_eq_false.mp h a ha])]
  · intro h
    refine ⟨h, ?_, ?_⟩
    · intro x
      rw [WeatherDatabase.delete_record]
      simp [List.mem_filter]
    · intro hu
      have hc1 : db.countP (fun r => sameKey r loc d) = 1 := by
        have hle := keysUnique_countP_le_one hu loc d
        have hpos : 0 < db.countP (fun r => sameKey r loc d) := by
          rw [List.countP_pos_iff]
          rcases List.any_eq_true.mp h with ⟨x, hx, hkx⟩
          exact ⟨x, hx, hkx⟩
        omega
      rw [WeatherDatabase.delete_record]
      simp only
      rw [← List.countP_eq_length_filter]
      have := countP_not_add_countP (fun r => sameKey r loc d) db
      omega

/-- Witness for C4: deleting an absent Dallas key from the Austin store
returns false and changes nothing; deleting the present Austin key removes
exactly one row. -/
theorem c4_delete_missing_and_present_witness :
    WeatherDatabase.delete_record [recAustin] "Dallas, TX" "2099-01-01" =
      ([recAustin], false) ∧
    (WeatherDatabase.delete_record [recAustin] "Austin, TX" "2024-03-01").2 =
      true ∧
    (WeatherDatabase.delete_record [recAustin] "Austin, TX"
      "2024-03-01").1.length + 1 = [recAustin].length := by
  have h1 := (c4_delete_missing_and_present [recAustin] "Dallas, TX"
    "2099-01-01").1 (by decide)
  have h2 := (c4_delete_missing_and_present [recAustin] "Austin, TX"
    "2024-03-01").2 (by decide)
  exact ⟨h1, h2.1, h2.2.2 (by simp [KeysUnique])⟩

/-- C5: a save request whose exact key already exists does not mutate the
store and returns false, stashing the request in the pending slot; the
store is mutated with the stashed fields only on a `true` confirmation
signal; a `false` signal leaves the store unchanged; and the pending slot
is cleared unconditionally once the signal is resolved. -/
theorem c5_duplicate_confirmation_workflow :
    (∀ (st : AppState) (loc d : String) (t : Int) (ws wd fc now : String),
      st.db.any (fun r => sameKey r loc d) = true →
      TemperatureDisplay.save_weather_record st loc d t ws wd fc now =
        (⟨st.db, some ⟨loc, d, t, ws, wd, fc⟩⟩, false)) ∧
    (∀ (st : AppState) (p : PendingSave) (now : String),
      st.pending_save_info = some p →
      TemperatureDisplay.handle_duplicate_confirmation st true now =
        ⟨(WeatherDatabase.save_weather_record st.db p.location p.date_str
            p.temperature p.wind_speed p.wind_direction p.forecast now).1,
          none⟩) ∧
    (∀ (st : AppState) (now : String),
      TemperatureDisplay.handle_duplicate_confirmation st false now =
        ⟨st.db, none⟩) := by
  refine ⟨?_, ?_, ?_⟩
  · intro st loc d t ws wd fc now ha
    have hdup : (WeatherDatabase.get_records_by_location st.db loc).any
        (fun r => r.date == d) = true := by
      rcases List.any_eq_true.mp ha with ⟨r, hr, hk⟩
      simp only [sameKey, Bool.and_eq_true, beq_iff_eq] at hk
      refine List.any_eq_true.mpr ⟨r, ?_, by simp [hk.2]⟩
      rw [WeatherDatabase.get_records_by_location]
      refine List.mem_mergeSort.mpr (List.mem_filter.mpr ⟨hr, ?_⟩)
      rw [hk.1]
      exact likeContains_self loc
    rw [TemperatureDisplay.save_weather_record, if_pos hdup]
  · intro st p now hp
    rw [TemperatureDisplay.handle_duplicate_confirmation, if_pos rfl, hp]
  · intro st now
    rw [TemperatureDisplay.handle_duplicate_confirmation, if_neg
      (by simp)]

/-- Witness for C5: against the one-record Austin store, a colliding save
leaves the store alone and stashes the request; confirming with `true`
commits the stashed fields; cancelling leaves the store unchanged. -/
theorem c5_duplicate_confirmation_workflow_witness :
    TemperatureDisplay.save_weather_record ⟨[recAustin], none⟩ "Austin, TX"
        "2024-03-01" 75 "5 mph" "N" "Cloudy" "t9" =
      (⟨[recAustin],
        some ⟨"Austin, TX", "2024-03-01", 75, "5 mph", "N", "Cloudy"⟩⟩,
       false) ∧
    TemperatureDisplay.handle_duplicate_confirmation
        ⟨[recAustin],
         some ⟨"Austin, TX", "2024-03-01", 75, "5 mph", "N", "Cloudy"⟩⟩
        true "t9" =
      ⟨(WeatherDatabase.save_weather_record [recAustin] "Austin, TX"
          "2024-03-01" 75 "5 mph" "N" "Cloudy" "t9").1, none⟩ ∧
    TemperatureDisplay.handle_duplicate_confirmation
        ⟨[recAustin],
         some ⟨"Austin, TX", "2024-03-01", 75, "5 mph", "N", "Cloudy"⟩⟩
        false "t9" =
      ⟨[recAustin], none⟩ :=
  ⟨c5_duplicate_confirmation_workflow.1 ⟨[recAustin], none⟩ "Austin, TX"
      "2024-03-01" 75 "5 mph" "N" "Cloudy" "t9" (by decide),
   c5_duplicate_confirmation_workflow.2.1 _
     ⟨"Austin, TX", "2024-03-01", 75, "5 mph", "N", "Cloudy"⟩ "t9" rfl,
   c5_duplicate_confirmation_workflow.2.2 _ "t9"⟩

theorem delete_preserves_absent {db : List WeatherRecord} {loc d : String}
    (h : db.any (fun x => sameKey x loc d) = false) (l2 d2 : String) :
    ((WeatherDatabase.delete_record db l2 d2).1).any
      (fun x => sameKey x loc d) = false := by
  rw [WeatherDatabase.delete_record]
  rw [List.any_eq_false]
  intro x hx
  exact List.any_eq_false.mp h x (List.mem_filter.mp hx).1

theorem delete_makes_absent (db : List WeatherRecord) (loc d : String) :
    ((WeatherDatabase.delete_record db loc d).1).any
      (fun x => sameKey x loc d) = false := by
  rw [WeatherDatabase.delete_record]
  rw [List.any_eq_false]
  intro x hx
  have := (List.mem_filter.mp hx).2
  simp only [Bool.not_eq_true'] at this
  simp [this]

theorem deletePass_preserves_absent (sel : List WeatherRecord) :
    ∀ (db : List WeatherRecord) (loc d : String),
      db.any (fun x => sameKey x loc d) = false →
      ((deletePass db sel).1).any (fun x => sameKey x loc d) = false := by
  induction sel with
  | nil => intro db loc d h; exact h
  | cons s t ih =>
    intro db loc d h
    exact ih _ loc d (delete_preserves_absent h s.location s.date)

theorem deletePass_all_absent (sel : List WeatherRecord) :
    ∀ (db : List WeatherRecord) (r : WeatherRecord), r ∈ sel →
      ((deletePass db sel).1).any
        (fun x => sameKey x r.location r.date) = false := by
  induction sel with
  | nil => intro db r hr; cases hr
  | cons s t ih =>
    intro db r hr
    rcases List.mem_cons.mp hr with rfl | hr
    · exact deletePass_preserves_absent t _ r.location r.date
        (delete_makes_absent db r.location r.date)
    · exact ih _ r hr

theorem anyDeletePass_of_absent (rs : List WeatherRecord) :
    ∀ db : List WeatherRecord,
      (∀ r ∈ rs, db.any (fun x => sameKey x r.location r.date) = false) →
      anyDeletePass db rs = (db, false, rs.length) := by
  induction rs with
  | nil => intro db _; rfl
  | cons s t ih =>
    intro db h
    have hs : db.any (fun x => sameKey x s.location s.date) = false :=
      h s (List.mem_cons_self s t)
    have hdel : WeatherDatabase.delete_record db s.location s.date = (db, false) := by
      rw [WeatherDatabase.delete_record, hs,
        List.filter_eq_self.mpr (by
          intro a ha
          simp [List.any_eq_false.mp hs a ha])]
    rw [anyDeletePass]
    simp only [hdel]
    rw [ih db (fun r hr => h r (List.mem_cons_of_mem s hr))]
    rfl

theorem deletedKeysGo_of_absent (sel : List WeatherRecord)
    (outer : List WeatherRecord) :
    ∀ db : List WeatherRecord,
      (∀ r ∈ sel, db.any (fun x => sameKey x r.location r.date) = false) →
      deletedKeysGo sel db outer = (db, outer.length * sel.length) := by
  induction outer with
  | nil => intro db _; simp [deletedKeysGo]
  | cons o t ih =>
    intro db h
    rw [deletedKeysGo]
    simp only [anyDeletePass_of_absent sel db h]
    rw [ih db h]
    simp [List.length_cons, Nat.succ_mul, Nat.add_comm]

theorem deletePass_calls (sel : List WeatherRecord) :
    ∀ db : List WeatherRecord, (deletePass db sel).2.2 = sel.length := by
  induction sel with
  | nil => intro db; rfl
  | cons s t ih =>
    intro db
    rw [deletePass]
    simp only [List.length_cons]
    rw [ih]

/-- C6 (counterexample): the bulk deletion does not invoke `delete` exactly
once per record in the list: on the selection with the two existing keys
(Boston, Austin) and one absent key (Dallas), the code performs 12 delete
invocations — one per record in the counting loop and nine more inside the
`deleted_keys` generator (src/main.py:609) — not 3. -/
theorem c6_delete_calls_counterexample :
    (delete_selected_records [recBoston, recAustin]
      [recBoston, recAustin, recDallas]).2.2.1 ≠
      ([recBoston, recAustin, recDallas] : List WeatherRecord).length := by
  decide

/-- C6 (amended): the counting pass invokes `delete` once per record; when
at least one deletion succeeded, the `deleted_keys` computation redundantly
re-invokes `delete` once per record per record (`n + n * n` invocations in
total), but those extra calls delete nothing because every selected key is
already absent after the counting pass — so the store ends exactly as the
counting pass left it and lacks every selected key; the aggregate outcome
is the counting pass's success count (2 in the 2-existing/1-absent
scenario), and the displayed list is then re-fetched from the store. -/
theorem c6_bulk_delete_behavior :
    (∀ db sel : List WeatherRecord,
      (delete_selected_records db sel).1 = (deletePass db sel).1) ∧
    (∀ (db sel : List WeatherRecord) (r : WeatherRecord), r ∈ sel →
      ((delete_selected_records db sel).1).any
        (fun x => sameKey x r.location r.date) = false) ∧
    (∀ db sel : List WeatherRecord,
      (delete_selected_records db sel).2.2.1 =
        sel.length +
          (if 0 < (delete_selected_records db sel).2.1 then
            sel.length * sel.length else 0)) ∧
    (∀ db sel : List WeatherRecord,
      0 < (delete_selected_records db sel).2.1 →
      (delete_selected_records db sel).2.2.2 =
        some (WeatherDatabase.get_all_records
          (delete_selected_records db sel).1)) ∧
    (delete_selected_records [recBoston, recAustin]
      [recBoston, recAustin, recDallas]).2.1 = 2 ∧
    (delete_selected_records [recBoston, recAustin]
      [recBoston, recAustin, recDallas]).1 = [] := by
  have habs : ∀ db sel : List WeatherRecord,
      ∀ r ∈ sel, ((deletePass db sel).1).any
        (fun x => sameKey x r.location r.date) = false :=
    fun db sel r hr => deletePass_all_absent sel db r hr
  have hgo : ∀ db sel : List WeatherRecord,
      deletedKeysGo sel (deletePass db sel).1 sel =
        ((deletePass db sel).1, sel.length * sel.length) := by
    intro db sel
    rw [deletedKeysGo_of_absent sel sel (deletePass db sel).1 (habs db sel)]
  have hfst : ∀ db sel : List WeatherRecord,
      (delete_selected_records db sel).1 = (deletePass db sel).1 := by
    intro db sel
    rw [delete_selected_records]
    by_cases hc : (deletePass db sel).2.1 > 0
    · rw [if_pos hc]
      simp only [deletedKeysPass, hgo db sel]
    · rw [if_neg hc]
  have hcnt : ∀ db sel : List WeatherRecord,
      (delete_selected_records db sel).2.1 = (deletePass db sel).2.1 := by
    intro db sel
    rw [delete_selected_records]
    by_cases hc : (deletePass db sel).2.1 > 0
    · rw [if_pos hc]
    · rw [if_neg hc]
  refine ⟨hfst, ?_, ?_, ?_, by decide, by decide⟩
  · intro db sel r hr
    rw [hfst db sel]
    exact habs db sel r hr
  · intro db sel
    rw [hcnt db sel, delete_selected_records]
    by_cases hc : (deletePass db sel).2.1 > 0
    · rw [if_pos hc]
      simp only [deletedKeysPass, hgo db sel, deletePass_calls sel db, if_pos hc]
    · rw [if_neg hc]
      simp only [deletePass_calls sel db, if_neg hc]
      omega
  · intro db sel h
    rw [hcnt db sel] at h
    rw [hfst db sel, delete_selected_records, if_pos h]
    simp only [deletedKeysPass, hgo db sel]

/-- Witness for C6 (amended): instantiated on the Boston/Austin store with
the three-record selection. -/
theorem c6_bulk_delete_behavior_witness :
    recBoston ∈ ([recBoston, recAustin, recDallas] : List WeatherRecord) ∧
    ((delete_selected_records [recBoston, recAustin]
        [recBoston, recAustin, recDallas]).1).any
      (fun x => sameKey x recBoston.location recBoston.date) = false ∧
    0 < (delete_selected_records [recBoston, recAustin]
      [recBoston, recAustin, recDallas]).2.1 ∧
    (delete_selected_records [recBoston, recAustin]
        [recBoston, recAustin, recDallas]).2.2.2 =
      some (WeatherDatabase.get_all_records
        (delete_selected_records [recBoston, recAustin]
          [recBoston, recAustin, recDallas]).1) :=
  ⟨by decide,
   c6_bulk_delete_behavior.2.1 [recBoston, recAustin]
     [recBoston, recAustin, recDallas] recBoston (by decide),
   by decide,
   c6_bulk_delete_behavior.2.2.2.1 [recBoston, recAustin]
     [recBoston, recAustin, recDallas] (by decide)⟩

/-- C7: an empty selection is rejected before any store delete call is made
(zero delete invocations, store untouched) and is reported as a distinct
"no selection" outcome, never the outcome of a delete that ran (with or
without effect). -/
theorem c7_empty_selection_rejected :
    (∀ db : List WeatherRecord,
      confirm_delete_selected db [] = (db, 0, BulkOutcome.noSelection)) ∧
    (∀ db sel : List WeatherRecord, sel ≠ [] →
      (confirm_delete_selected db sel).2.2 ≠ BulkOutcome.noSelection) := by
  constructor
  · intro db; rfl
  · intro db sel h
    rw [confirm_delete_selected, if_neg (by simpa using h)]
    dsimp only
    split
    · intro hc; cases hc
    · intro hc; cases hc

/-- Witness for C7: a nonempty selection never reports "no selection". -/
theorem c7_empty_selection_rejected_witness :
    ([recBoston] : List WeatherRecord) ≠ [] ∧
    (confirm_delete_selected [recBoston, recAustin] [recBoston]).2.2 ≠
      BulkOutcome.noSelection :=
  ⟨by decide,
   c7_empty_selection_rejected.2 [recBoston, recAustin] [recBoston] (by decide)⟩

/-- C10: the duplicate check queries by substring match on location, so a
save whose exact `(location, date)` key is absent can still be flagged as a
duplicate: with only the "Austin, TX" record stored, a save for location
"Austin" on the same date is reported as a duplicate — it returns false,
stashes a pending confirmation, and does not save — although no record has
the key ("Austin", "2024-03-01"). -/
theorem c10_substring_duplicate_check :
    ([recAustin] : List WeatherRecord).any
      (fun r => sameKey r "Austin" "2024-03-01") = false ∧
    TemperatureDisplay.save_weather_record ⟨[recAustin], none⟩ "Austin"
        "2024-03-01" 60 "1 mph" "S" "Rain" "t9" =
      (⟨[recAustin], some ⟨"Austin", "2024-03-01", 60, "1 mph", "S", "Rain"⟩⟩,
       false) := by
  refine ⟨by decide, ?_⟩
  have hq : WeatherDatabase.get_records_by_location [recAustin] "Austin" =
      [recAustin] := by
    have hA : likeContains recAustin.location "Austin" = true :=
      likeContains_austin_tx
    have hf : List.filter (fun r => likeContains r.location "Austin")
        [recAustin] = [recAustin] := by
      simp only [List.filter_cons, List.filter_nil, hA]
      simp
    rw [WeatherDatabase.get_records_by_location, hf, List.mergeSort_singleton]
  rw [TemperatureDisplay.save_weather_record, hq]
  decide

theorem digitVal_digit (d : Nat) (h : d < 10) :
    digitVal (Char.ofNat (48 + d)) = some d := by
  interval_cases d <;> decide

theorem parseNatAux_append (xs ys : List Char) :
    ∀ acc : Nat, parseNatAux (xs ++ ys) acc =
      match parseNatAux xs acc with
      | none => none
      | some a => parseNatAux ys a := by
  induction xs with
  | nil => intro acc; rfl
  | cons c cs ih =>
    intro acc
    rw [List.cons_append]
    simp only [parseNatAux]
    cases digitVal c with
    | none => rfl
    | some d => exact ih _

theorem natToDigits_parse (n : Nat) : ∀ acc : Nat,
    parseNatAux (natToDigits n) acc =
      some (acc * 10 ^ (natToDigits n).length + n) := by
  induction n using Nat.strong_induction_on with
  | _ n ih =>
    intro acc
    rw [natToDigits]
    by_cases h : n < 10
    · rw [if_pos h]
      simp only [parseNatAux, digitVal_digit n h, List.length_singleton, pow_one]
    · rw [if_neg h]
      rw [parseNatAux_append]
      rw [ih (n / 10) (Nat.div_lt_self (by omega) (by omega)) acc]
      simp only [parseNatAux, digitVal_digit (n % 10) (Nat.mod_lt _ (by omega))]
      have hdm : n / 10 * 10 + n % 10 = n := by omega
      have hl : (natToDigits (n / 10) ++ [Char.ofNat (48 + n % 10)]).length =
          (natToDigits (n / 10)).length + 1 := by simp
      rw [hl, pow_succ]
      congr 1
      calc (acc * 10 ^ (natToDigits (n / 10)).length + n / 10) * 10 + n % 10
          = acc * (10 ^ (natToDigits (n / 10)).length * 10) +
              (n / 10 * 10 + n % 10) := by ring
        _ = acc * (10 ^ (natToDigits (n / 10)).length * 10) + n := by rw [hdm]

theorem natToDigits_ne_nil (n : Nat) : natToDigits n ≠ [] := by
  rw [natToDigits]
  by_cases h : n < 10
  · rw [if_pos h]; exact List.cons_ne_nil _ _
  · rw [if_neg h]; simp

theorem parseNat_pyStrNat (n : Nat) : parseNat (pyStrNat n) = some n := by
  rcases List.exists_cons_of_ne_nil (natToDigits_ne_nil n) with ⟨c, cs, hd⟩
  rw [pyStrNat, hd]
  rw [show parseNat ⟨c :: cs⟩ = parseNatAux (c :: cs) 0 from rfl, ← hd,
    natToDigits_parse n 0]
  simp

theorem digit_char_bounds (d : Nat) (h : d < 10) :
    48 ≤ (Char.ofNat (48 + d)).toNat ∧ (Char.ofNat (48 + d)).toNat ≤ 57 := by
  interval_cases d <;> decide

theorem natToDigits_all_digits (n : Nat) :
    ∀ x ∈ natToDigits n, 48 ≤ x.toNat ∧ x.toNat ≤ 57 := by
  induction n using Nat.strong_induction_on with
  | _ n ih =>
    intro x hx
    rw [natToDigits] at hx
    by_cases h : n < 10
    · rw [if_pos h] at hx
      rcases List.mem_singleton.mp hx with rfl
      exact digit_char_bounds n h
    · rw [if_neg h] at hx
      rcases List.mem_append.mp hx with hx | hx
      · exact ih (n / 10) (Nat.div_lt_self (by omega) (by omega)) x hx
      · rcases List.mem_singleton.mp hx with rfl
        exact digit_char_bounds (n % 10) (Nat.mod_lt _ (by omega))

theorem parseInt_of_head_digit {c : Char} (hc : 48 ≤ c.toNat) (cs : List Char) :
    parseInt ⟨c :: cs⟩ = (parseNatAux (c :: cs) 0).map (fun m => (m : Int)) := by
  have hne : c ≠ '-' := by
    intro e
    rw [e] at hc
    exact absurd hc (by decide)
  rw [parseInt.eq_def]
  split
  · simp_all
  · rename_i heq
    simp only [List.cons.injEq] at heq
    exact absurd heq.1 hne
  · rfl

theorem parseInt_pyStrInt (i : Int) : parseInt (pyStrInt i) = some i := by
  cases i with
  | ofNat n =>
    rcases List.exists_cons_of_ne_nil (natToDigits_ne_nil n) with ⟨c, cs, hd⟩
    have hc : 48 ≤ c.toNat :=
      (natToDigits_all_digits n c (hd ▸ List.mem_cons_self c cs)).1
    rw [pyStrInt, pyStrNat, hd, parseInt_of_head_digit hc, ← hd,
      natToDigits_parse n 0]
    simp
  | negSucc n =>
    rcases List.exists_cons_of_ne_nil (natToDigits_ne_nil (n + 1)) with ⟨c, cs, hd⟩
    rw [pyStrInt, pyStrNat, hd]
    rw [show ("-" ++ (⟨c :: cs⟩ : String)) = ⟨'-' :: c :: cs⟩ from rfl]
    rw [show parseInt ⟨'-' :: c :: cs⟩ =
      (parseNatAux (c :: cs) 0).map (fun m => -(m : Int)) from rfl]
    rw [← hd, natToDigits_parse (n + 1) 0]
    simp [Int.negSucc_eq]

/-- C8: exporting N records yields a root whose `total_records` attribute is
the decimal text of N (re-parsing it gives back N) and exactly N child
entries, the i-th being the element of the i-th record; every entry carries
the seven fields as named child elements in the fixed order, whose text
reproduces the record's field values (temperature as its decimal text,
which re-parses to the original integer; the date string is stored as
given, `YYYY-MM-DD`). -/
theorem c8_export_round_trip (exportDate : String) (records : List WeatherRecord) :
    List.lookup "total_records"
        (TemperatureDisplay.export_records_to_xml exportDate records).attrs =
      some (pyStrNat records.length) ∧
    parseNat (pyStrNat records.length) = some records.length ∧
    (TemperatureDisplay.export_records_to_xml exportDate records).children.length =
      records.length ∧
    (TemperatureDisplay.export_records_to_xml exportDate records).children =
      records.map TemperatureDisplay.export_record_element ∧
    (∀ r : WeatherRecord,
      (TemperatureDisplay.export_record_element r).children.map XmlElement.tag =
        ["location", "date", "temperature", "wind_speed", "wind_direction",
         "forecast", "created_at"]) ∧
    (∀ r : WeatherRecord,
      (TemperatureDisplay.export_record_element r).children.map XmlElement.text =
        [some r.location, some r.date, some (pyStrInt r.temperature),
         some r.wind_speed, some r.wind_direction, some r.forecast,
         some r.created_at]) ∧
    (∀ r : WeatherRecord, parseInt (pyStrInt r.temperature) = some r.temperature) := by
  refine ⟨rfl, parseNat_pyStrNat records.length, ?_, rfl, fun r => rfl, fun r => rfl,
    fun r => parseInt_pyStrInt r.temperature⟩
  simp [TemperatureDisplay.export_records_to_xml, XmlElement.children]

theorem startsWithDecl_fieldLine (name txt : String) :
    startsWithDecl (fieldLine name txt) = false := by
  rw [fieldLine]
  split
  · rfl
  · rfl

theorem startsWithDecl_recordLines (r : WeatherRecord) :
    ∀ l ∈ recordLines r, startsWithDecl l = false := by
  intro l hl
  rw [recordLines] at hl
  simp only [List.mem_cons, List.mem_singleton] at hl
  rcases hl with rfl | rfl | rfl | rfl | rfl | rfl | rfl | rfl | rfl | hl
  · rfl
  · exact startsWithDecl_fieldLine _ _
  · exact startsWithDecl_fieldLine _ _
  · exact startsWithDecl_fieldLine _ _
  · exact startsWithDecl_fieldLine _ _
  · exact startsWithDecl_fieldLine _ _
  · exact startsWithDecl_fieldLine _ _
  · exact startsWithDecl_fieldLine _ _
  · rfl
  · cases hl

/-- C9: for every exported record list (with single-line field text, the
shape the store produces), the written export file begins with exactly one
XML declaration line and contains no duplicated declaration lines: the
first line is the declaration the code writes itself, and no other line of
the deterministically indented body begins like a declaration. -/
theorem c9_export_single_declaration (exportDate : String)
    (records : List WeatherRecord) (_hed : singleLine exportDate)
    (_hrec : ∀ r ∈ records, singleLine r.location ∧ singleLine r.date ∧
      singleLine r.wind_speed ∧ singleLine r.wind_direction ∧
      singleLine r.forecast ∧ singleLine r.created_at) :
    (export_file_lines exportDate records).head? =
      some "<?xml version=\"1.0\" encoding=\"UTF-8\"?>" ∧
    (export_file_lines exportDate records).countP startsWithDecl = 1 := by
  refine ⟨rfl, ?_⟩
  rw [export_file_lines, List.countP_cons]
  have hz : ((prettyXmlLines exportDate records).tail).countP startsWithDecl = 0 := by
    rw [List.countP_eq_zero]
    intro line hline
    rw [prettyXmlLines] at hline
    rw [List.tail_cons] at hline
    rcases List.mem_append.mp hline with hb | he
    · by_cases hemp : records.isEmpty
      · rw [if_pos hemp] at hb
        rcases List.mem_singleton.mp hb with rfl
        simp [startsWithDecl, rootEmptyLine, isPrefixList]
      · rw [if_neg hemp] at hb
        rcases List.mem_cons.mp hb with rfl | hb
        · simp [startsWithDecl, rootOpenLine, isPrefixList]
        · rcases List.mem_append.mp hb with hb | hb
          · rcases List.mem_flatMap.mp hb with ⟨r, _, hlr⟩
            simp [startsWithDecl_recordLines r line hlr]
          · rcases List.mem_singleton.mp hb with rfl
            decide
    · rcases List.mem_singleton.mp he with rfl
      decide
  rw [hz]
  decide

/-- Witness for C9: the export of the singleton Austin store. -/
theorem c9_export_single_declaration_witness :
    singleLine "2024-03-05T12:00:00" ∧
    (∀ r ∈ ([recAustin] : List WeatherRecord), singleLine r.location ∧
      singleLine r.date ∧ singleLine r.wind_speed ∧
      singleLine r.wind_direction ∧ singleLine r.forecast ∧
      singleLine r.created_at) ∧
    (export_file_lines "2024-03-05T12:00:00" [recAustin]).head? =
      some "<?xml version=\"1.0\" encoding=\"UTF-8\"?>" ∧
    (export_file_lines "2024-03-05T12:00:00" [recAustin]).countP
      startsWithDecl = 1 := by
  have hed : singleLine "2024-03-05T12:00:00" := by decide
  have hrec : ∀ r ∈ ([recAustin] : List WeatherRecord), singleLine r.location ∧
      singleLine r.date ∧ singleLine r.wind_speed ∧
      singleLine r.wind_direction ∧ singleLine r.forecast ∧
      singleLine r.created_at := by decide
  have h := c9_export_single_declaration "2024-03-05T12:00:00" [recAustin] hed hrec
  exact ⟨hed, hrec, h.1, h.2⟩
